import Mathlib

namespace TaskApi

/-!
# Task Organizer backend — shallow embedding

A shallow embedding of the task CRUD backend
(`src/backend_api/src/api`): the `Task` ORM model (`models.py`), the
pydantic request schemas (`schemas.py`) and the five route handlers
(`routes/tasks.py`).

Modelling choices:
* Timestamps are natural numbers.  The store keeps a `clock`; every
  committed write transaction reads the clock as `now()` and the clock
  then advances strictly (server time moves forward between commits).
  On insert both `created_at` and `updated_at` get the server default
  `now()`.  On `db.commit()` the ORM flushes a persistent entity only
  when some attribute has a net change against its loaded value; only
  then is an UPDATE emitted and only then does the `onupdate` hook
  refresh `updated_at`.  A commit with no net change writes nothing
  and leaves the row, `updated_at` included, exactly as it was.
* A JSON body field is `missing`, explicitly `null`, or a value
  (`Field`); the pydantic layer (`parseTaskCreate`, `parseTaskUpdate`)
  turns it into the schema record or a 422 `validationError` before the
  handler runs, exactly as FastAPI does.
* Each handler is a function from the store (and the parsed inputs) to
  a pair of the HTTP-level outcome (`Except ApiError …`) and the store
  after the request; `HTTPException` is raised before any mutation, so
  the error branches return the store unchanged.
-/

/-- Errors surfaced over HTTP: 422 (pydantic validation) and 404. -/
inductive ApiError where
  | validationError
  | notFound
deriving DecidableEq, Repr

/-- The `Task` ORM row (`models.py`): integer primary key, title
(non-null string), completion flag, and the two timestamps. -/
structure Task where
  id : Nat
  title : String
  is_completed : Bool
  created_at : Nat
  updated_at : Nat
deriving DecidableEq, Repr

/-- The persistent store: the rows of the `tasks` table (in insertion
order), the autoincrement counter for the primary key, and the server
clock used for `func.now()` / `onupdate` timestamps. -/
structure Store where
  tasks : List Task
  nextId : Nat
  clock : Nat
deriving DecidableEq, Repr

/-- A freshly provisioned, empty store. -/
def Store.empty : Store := ⟨[], 1, 0⟩

/-- Model of `db.get(Task, task_id)`: primary-key lookup. -/
def dbGet (st : Store) (task_id : Nat) : Option Task :=
  st.tasks.find? (fun t => t.id == task_id)

/-- A field of a JSON request body: absent, explicit `null`, or a
value. -/
inductive Field (α : Type) where
  | missing
  | null
  | val (a : α)
deriving DecidableEq, Repr

/-- Model of `constr(min_length=1, max_length=255)` from `schemas.py`. -/
def validTitle (s : String) : Bool :=
  1 ≤ s.length && s.length ≤ 255

/-- Parsed `TaskCreate` payload (`schemas.py`): a required title. -/
structure TaskCreate where
  title : String
deriving DecidableEq, Repr

/-- Parsed `TaskUpdate` payload (`schemas.py`): both fields optional,
`None` when the client omitted the field or sent `null`. -/
structure TaskUpdate where
  title : Option String
  is_completed : Option Bool
deriving DecidableEq, Repr

/-- Validation of a `TaskCreate` body.  `title` is a required,
non-`Optional` `constr(min_length=1, max_length=255)`: a missing field,
an explicit `null`, and an out-of-range string are all 422s. -/
def parseTaskCreate (title : Field String) : Except ApiError TaskCreate :=
  match title with
  | .missing => .error .validationError
  | .null => .error .validationError
  | .val s => if validTitle s then .ok ⟨s⟩ else .error .validationError

/-- Validation of the optional `title` of a `TaskUpdate` body:
`Optional[constr(1,255)] = None`, so a missing field and an explicit
`null` both parse to `None`; a present string must be in range. -/
def parseOptTitle (f : Field String) : Except ApiError (Option String) :=
  match f with
  | .missing => .ok none
  | .null => .ok none
  | .val s => if validTitle s then .ok (some s) else .error .validationError

/-- Validation of the optional `is_completed` of a `TaskUpdate` body:
`Optional[bool] = None`. -/
def parseOptBool (f : Field Bool) : Except ApiError (Option Bool) :=
  match f with
  | .missing => .ok none
  | .null => .ok none
  | .val b => .ok (some b)

/-- Validation of a whole `TaskUpdate` body. -/
def parseTaskUpdate (title : Field String) (is_completed : Field Bool) :
    Except ApiError TaskUpdate := do
  let t ← parseOptTitle title
  let c ← parseOptBool is_completed
  return ⟨t, c⟩

/-- The `ORDER BY created_at DESC, id DESC` relation of `list_tasks`:
`taskOrder a b` says row `a` may appear no later than row `b`. -/
def taskOrder (a b : Task) : Prop :=
  b.created_at < a.created_at ∨ (a.created_at = b.created_at ∧ b.id ≤ a.id)

instance (a b : Task) : Decidable (taskOrder a b) :=
  inferInstanceAs (Decidable (_ ∨ _ ∧ _))

instance : IsTotal Task taskOrder :=
  ⟨by intro a b; unfold taskOrder; omega⟩

instance : IsTrans Task taskOrder :=
  ⟨by intro a b c hab hbc; unfold taskOrder at *; omega⟩

/-- Endpoint `GET /tasks` (`list_tasks`): all rows, ordered by
`(created_at DESC, id DESC)`. -/
def list_tasks (st : Store) : List Task :=
  st.tasks.insertionSort taskOrder

/-- The body of `create_task` after validation: insert a row with the
given title, `is_completed=False`, a store-assigned id, and both
timestamps set to `now()` by the server defaults; commit advances the
clock.  Returns the refreshed row. -/
def create_task (st : Store) (payload : TaskCreate) : Task × Store :=
  let task : Task :=
    { id := st.nextId, title := payload.title, is_completed := false,
      created_at := st.clock, updated_at := st.clock }
  (task,
   { tasks := st.tasks ++ [task], nextId := st.nextId + 1,
     clock := st.clock + 1 })

/-- Endpoint `POST /tasks`: pydantic validation, then `create_task`. -/
def api_create (st : Store) (title : Field String) :
    Except ApiError Task × Store :=
  match parseTaskCreate title with
  | .error e => (.error e, st)
  | .ok payload =>
    let (t, st') := create_task st payload
    (.ok t, st')

/-- Replace the row with primary key `task_id` by `task'`
(what flushing a modified persistent entity does). -/
def replaceRow (rows : List Task) (task_id : Nat) (task' : Task) :
    List Task :=
  rows.map (fun t => if t.id == task_id then task' else t)

/-- The two `if payload.<field> is not None` statements of
`update_task`: apply exactly the supplied fields to the entity. -/
def applyPayload (task : Task) (payload : TaskUpdate) : Task :=
  let task1 :=
    match payload.title with
    | some s => { task with title := s }
    | none => task
  match payload.is_completed with
  | some b => { task1 with is_completed := b }
  | none => task1

/-- The row an emitted UPDATE writes for a changed entity: the merged
fields with `updated_at` refreshed to `now` by the `onupdate` hook. -/
def updatedTask (task : Task) (payload : TaskUpdate) (now : Nat) : Task :=
  { applyPayload task payload with updated_at := now }

/-- The body of `update_task` after validation: look up by id (404 when
absent, nothing written), apply exactly the supplied fields, commit.
Flush compares each attribute against its loaded value: when the merged
entity shows no net change (empty payload, or fields set to their
current values) no UPDATE is emitted, the `onupdate` hook does not
fire, and the row — `updated_at` included — is untouched; otherwise the
UPDATE writes the merged row with `updated_at` refreshed to `now()`.
Either way the commit advances the clock and the handler returns the
refreshed (possibly unchanged) row. -/
def update_task (st : Store) (task_id : Nat) (payload : TaskUpdate) :
    Except ApiError Task × Store :=
  match dbGet st task_id with
  | none => (.error .notFound, st)
  | some task =>
    if applyPayload task payload = task then
      (.ok task, { st with clock := st.clock + 1 })
    else
      (.ok (updatedTask task payload st.clock),
       { tasks := replaceRow st.tasks task_id
           (updatedTask task payload st.clock),
         nextId := st.nextId, clock := st.clock + 1 })

/-- Endpoint `PUT /tasks/<task_id>`: pydantic validation, then `update_task`. -/
def api_update (st : Store) (task_id : Nat) (title : Field String)
    (is_completed : Field Bool) : Except ApiError Task × Store :=
  match parseTaskUpdate title is_completed with
  | .error e => (.error e, st)
  | .ok payload => update_task st task_id payload

/-- Endpoint `POST /tasks/<task_id>/toggle` (`toggle_task`): look up by id (404
when absent, nothing written), set `is_completed` to its negation,
re-persist; `updated_at` is refreshed and the commit advances the
clock. -/
def toggle_task (st : Store) (task_id : Nat) :
    Except ApiError Task × Store :=
  match dbGet st task_id with
  | none => (.error .notFound, st)
  | some task =>
    let task' :=
      { task with is_completed := !task.is_completed,
                  updated_at := st.clock }
    (.ok task',
     { tasks := replaceRow st.tasks task_id task', nextId := st.nextId,
       clock := st.clock + 1 })

/-- Endpoint `DELETE /tasks/<task_id>` (`delete_task`): look up by id (404 when
absent, nothing written), remove the row permanently. -/
def delete_task (st : Store) (task_id : Nat) :
    Except ApiError Unit × Store :=
  match dbGet st task_id with
  | none => (.error .notFound, st)
  | some _ =>
    (.ok (),
     { tasks := st.tasks.filter (fun t => t.id != task_id),
       nextId := st.nextId, clock := st.clock + 1 })

/-- Iterated application of the toggle endpoint to one id. -/
def iterToggle (st : Store) (task_id : Nat) : Nat → Store
  | 0 => st
  | n + 1 => (toggle_task (iterToggle st task_id n) task_id).2

/-- Stores reachable from a fresh deployment by any sequence of API
requests. -/
inductive Reachable : Store → Prop where
  | init : Reachable Store.empty
  | create (st : Store) (f : Field String) :
      Reachable st → Reachable (api_create st f).2
  | update (st : Store) (task_id : Nat) (ft : Field String)
      (fb : Field Bool) :
      Reachable st → Reachable (api_update st task_id ft fb).2
  | toggle (st : Store) (task_id : Nat) :
      Reachable st → Reachable (toggle_task st task_id).2
  | delete (st : Store) (task_id : Nat) :
      Reachable st → Reachable (delete_task st task_id).2

/-- The row written by `toggle_task`: the flag flipped and
`updated_at` refreshed to `now`. -/
def toggledTask (task : Task) (now : Nat) : Task :=
  { task with is_completed := !task.is_completed, updated_at := now }

/-- Every row's timestamps are ordered and lie strictly before the
server clock. -/
def TimestampInv (st : Store) : Prop :=
  ∀ t ∈ st.tasks, t.created_at ≤ t.updated_at ∧ t.updated_at < st.clock

/-! ## Basic lemmas about the embedding -/

/-- A successful primary-key lookup returns a member of the table. -/
theorem dbGet_mem {st : Store} {task_id : Nat} {task : Task}
    (h : dbGet st task_id = some task) : task ∈ st.tasks :=
  List.mem_of_find?_eq_some h

/-- A successful primary-key lookup returns a row with the looked-up
key. -/
theorem dbGet_id {st : Store} {task_id : Nat} {task : Task}
    (h : dbGet st task_id = some task) : task.id = task_id := by
  have := List.find?_some h
  simpa using this

/-- The result of `GET /tasks` is sorted for `taskOrder`. -/
theorem list_tasks_sorted (st : Store) :
    (list_tasks st).Sorted taskOrder :=
  List.sorted_insertionSort taskOrder st.tasks

/-- C1: For every store state, the List operation (GET /tasks) returns
the tasks in a total order sorted by `created_at` descending with ties
broken by `id` descending: whenever row `A` (at position `i`) has a
strictly larger `created_at` than row `B` (at position `j`), or an
equal `created_at` and a strictly larger `id`, then `A` appears before
`B` (`i < j`). -/
theorem list_tasks_ordered (st : Store)
    (i j : Fin (list_tasks st).length)
    (h : ((list_tasks st).get j).created_at <
           ((list_tasks st).get i).created_at ∨
         (((list_tasks st).get i).created_at =
            ((list_tasks st).get j).created_at ∧
          ((list_tasks st).get j).id < ((list_tasks st).get i).id)) :
    i < j := by
  rcases lt_trichotomy i j with hij | hij | hij
  · exact hij
  · subst hij
    omega
  · have hr := (list_tasks_sorted st).rel_get_of_lt hij
    unfold taskOrder at hr
    omega

/-- Witness for C1 on a concrete two-row store. -/
theorem list_tasks_ordered_witness :
    (⟨0, by decide⟩ :
      Fin (list_tasks ⟨[⟨1, "a", false, 3, 3⟩, ⟨2, "b", false, 5, 5⟩],
        3, 6⟩).length) < ⟨1, by decide⟩ :=
  list_tasks_ordered _ _ _ (Or.inl (by decide))

/-- C2: a Create request whose `title` is missing, or is a string of
length 0 or more than 255, fails with a 422 `validationError` and
leaves the store untouched. -/
theorem create_invalid_rejected (st : Store) (f : Field String)
    (h : f = Field.missing ∨
         ∃ s, f = Field.val s ∧ (s.length = 0 ∨ 255 < s.length)) :
    (api_create st f).1 = .error .validationError ∧
    (api_create st f).2 = st := by
  rcases h with rfl | ⟨s, rfl, hs⟩
  · exact ⟨rfl, rfl⟩
  · have hv : validTitle s = false := by
      unfold validTitle
      simp only [Bool.and_eq_false_iff, decide_eq_false_iff_not, not_le]
      omega
    constructor <;> simp [api_create, parseTaskCreate, hv]

/-- Witness for C2: the empty-string title. -/
theorem create_invalid_rejected_witness :
    (api_create Store.empty (Field.val "")).1 =
      .error .validationError ∧
    (api_create Store.empty (Field.val "")).2 = Store.empty :=
  create_invalid_rejected Store.empty (Field.val "")
    (Or.inr ⟨"", rfl, Or.inl rfl⟩)

/-- C3: for every title of length 1 to 255, Create succeeds and inserts
a task with that title, `is_completed = false`, the store-generated id,
equal `created_at` and `updated_at`, and a subsequent List includes
it. -/
theorem create_valid_inserts (st : Store) (s : String)
    (h : 1 ≤ s.length ∧ s.length ≤ 255) :
    ∃ t : Task,
      (api_create st (Field.val s)).1 = .ok t ∧
      t.title = s ∧ t.is_completed = false ∧ t.id = st.nextId ∧
      t.created_at = t.updated_at ∧
      t ∈ list_tasks (api_create st (Field.val s)).2 := by
  have hv : validTitle s = true := by
    unfold validTitle
    simp only [Bool.and_eq_true, decide_eq_true_eq]
    omega
  refine ⟨⟨st.nextId, s, false, st.clock, st.clock⟩, ?_, rfl, rfl, rfl,
    rfl, ?_⟩
  · simp [api_create, parseTaskCreate, hv, create_task]
  · simp [api_create, parseTaskCreate, hv, create_task, list_tasks]

/-- Witness for C3: creating "a" in the empty store. -/
theorem create_valid_inserts_witness :
    ∃ t : Task,
      (api_create Store.empty (Field.val "a")).1 = .ok t ∧
      t.title = "a" ∧ t.is_completed = false ∧
      t.id = Store.empty.nextId ∧
      t.created_at = t.updated_at ∧
      t ∈ list_tasks (api_create Store.empty (Field.val "a")).2 :=
  create_valid_inserts Store.empty "a" (by decide)

/-- After a delete of `task_id`, the primary-key lookup for `task_id`
misses. -/
theorem dbGet_delete_self (st : Store) (task_id : Nat) :
    dbGet (delete_task st task_id).2 task_id = none := by
  unfold delete_task
  cases hget : dbGet st task_id with
  | none => exact hget
  | some task =>
    simp only [dbGet, List.find?_eq_none]
    intro x hx
    have := (List.mem_filter.mp hx).2
    simpa using this

/-- Applying a payload never touches the primary key. -/
theorem applyPayload_id (task : Task) (p : TaskUpdate) :
    (applyPayload task p).id = task.id := by
  rcases p with ⟨pt, pc⟩
  cases pt <;> cases pc <;> rfl

/-- Applying a payload never touches `created_at`. -/
theorem applyPayload_created_at (task : Task) (p : TaskUpdate) :
    (applyPayload task p).created_at = task.created_at := by
  rcases p with ⟨pt, pc⟩
  cases pt <;> cases pc <;> rfl

/-- Applying a payload never touches `updated_at`. -/
theorem applyPayload_updated_at (task : Task) (p : TaskUpdate) :
    (applyPayload task p).updated_at = task.updated_at := by
  rcases p with ⟨pt, pc⟩
  cases pt <;> cases pc <;> rfl

/-- With `is_completed` omitted, `applyPayload` keeps the flag. -/
theorem applyPayload_is_completed_none (task : Task)
    (pt : Option String) :
    (applyPayload task ⟨pt, none⟩).is_completed = task.is_completed := by
  cases pt <;> rfl

/-- With `title` omitted, `applyPayload` keeps the title. -/
theorem applyPayload_title_none (task : Task) (pc : Option Bool) :
    (applyPayload task ⟨none, pc⟩).title = task.title := by
  cases pc <;> rfl

/-- With `title` supplied, `applyPayload` writes it. -/
theorem applyPayload_title_some (task : Task) (s : String)
    (pc : Option Bool) :
    (applyPayload task ⟨some s, pc⟩).title = s := by
  cases pc <;> rfl

/-- A member of `replaceRow rows task_id task'` is the new row or an
old one. -/
theorem mem_replaceRow {rows : List Task} {task_id : Nat}
    {task' u : Task} (hu : u ∈ replaceRow rows task_id task') :
    u = task' ∨ u ∈ rows := by
  rw [replaceRow, List.mem_map] at hu
  obtain ⟨a, ha, hat⟩ := hu
  by_cases h : a.id = task_id
  · simp [h] at hat
    exact Or.inl hat.symm
  · simp [h] at hat
    exact Or.inr (hat ▸ ha)

/-- Rows whose id differs from the replaced one survive
`replaceRow`. -/
theorem mem_replaceRow_of_ne {rows : List Task} {task_id : Nat}
    {task' u : Task} (hu : u ∈ rows) (hne : u.id ≠ task_id) :
    u ∈ replaceRow rows task_id task' := by
  rw [replaceRow, List.mem_map]
  exact ⟨u, hu, by simp [hne]⟩

/-- A member of `replaceRow` whose id differs from the replaced one was
already in the table. -/
theorem of_mem_replaceRow_ne {rows : List Task} {task_id : Nat}
    {task' u : Task} (hu : u ∈ replaceRow rows task_id task')
    (hid : task'.id = task_id) (hne : u.id ≠ task_id) : u ∈ rows := by
  rcases mem_replaceRow hu with rfl | h
  · exact absurd hid hne
  · exact h

/-- After replacing the row a lookup found, the lookup finds the new
row. -/
theorem find?_replaceRow (rows : List Task) (task_id : Nat)
    (task task' : Task)
    (hfind : rows.find? (fun t => t.id == task_id) = some task)
    (hid : task'.id = task_id) :
    (replaceRow rows task_id task').find? (fun t => t.id == task_id) =
      some task' := by
  induction rows with
  | nil => simp at hfind
  | cons a l ih =>
    by_cases h : a.id = task_id
    · simp [replaceRow, h, hid]
    · have hfind' : l.find? (fun t => t.id == task_id) = some task := by
        rw [List.find?_cons_of_neg] at hfind
        · exact hfind
        · simp [h]
      have := ih hfind'
      rw [replaceRow] at this ⊢
      simp only [List.map_cons]
      rw [if_neg (by simpa using h), List.find?_cons_of_neg _ (by simp [h])]
      exact this

/-- When the primary-key lookup misses, `update_task` answers 404 and
does not touch the store. -/
theorem update_task_miss (st : Store) (task_id : Nat) (p : TaskUpdate)
    (h : dbGet st task_id = none) :
    (update_task st task_id p).1 = .error .notFound ∧
    (update_task st task_id p).2 = st := by
  constructor <;> simp [update_task, h]

/-- When the primary-key lookup misses, `toggle_task` answers 404 and
does not touch the store. -/
theorem toggle_task_miss (st : Store) (task_id : Nat)
    (h : dbGet st task_id = none) :
    (toggle_task st task_id).1 = .error .notFound ∧
    (toggle_task st task_id).2 = st := by
  constructor <;> simp [toggle_task, h]

/-- When the primary-key lookup misses, `delete_task` answers 404 and
does not touch the store. -/
theorem delete_task_miss (st : Store) (task_id : Nat)
    (h : dbGet st task_id = none) :
    (delete_task st task_id).1 = .error .notFound ∧
    (delete_task st task_id).2 = st := by
  constructor <;> simp [delete_task, h]

/-- C7: after a successful `delete(id)`, any subsequent update (with
any payload), toggle, or delete of the same id fails with 404
`notFound`, and the deleted row is gone: no task with that id appears
in a subsequent List. -/
theorem delete_then_not_found (st : Store) (task_id : Nat) (task : Task)
    (hget : dbGet st task_id = some task) :
    (delete_task st task_id).1 = .ok () ∧
    (∀ p : TaskUpdate,
      (update_task (delete_task st task_id).2 task_id p).1 =
        .error .notFound) ∧
    (toggle_task (delete_task st task_id).2 task_id).1 =
      .error .notFound ∧
    (delete_task (delete_task st task_id).2 task_id).1 =
      .error .notFound ∧
    (∀ u ∈ list_tasks (delete_task st task_id).2, u.id ≠ task_id) := by
  have hnone := dbGet_delete_self st task_id
  refine ⟨by simp [delete_task, hget], ?_, ?_, ?_, ?_⟩
  · exact fun p => (update_task_miss _ _ p hnone).1
  · exact (toggle_task_miss _ _ hnone).1
  · exact (delete_task_miss _ _ hnone).1
  · intro u hu
    rw [list_tasks, List.mem_insertionSort] at hu
    intro hid
    rw [dbGet, List.find?_eq_none] at hnone
    exact hnone u hu (by simp [hid])

/-- Witness for C7 on a one-row store. -/
theorem delete_then_not_found_witness :
    (delete_task ⟨[⟨1, "a", false, 0, 0⟩], 2, 1⟩ 1).1 = .ok () ∧
    (∀ p : TaskUpdate,
      (update_task (delete_task ⟨[⟨1, "a", false, 0, 0⟩], 2, 1⟩ 1).2 1
        p).1 = .error .notFound) ∧
    (toggle_task (delete_task ⟨[⟨1, "a", false, 0, 0⟩], 2, 1⟩ 1).2 1).1 =
      .error .notFound ∧
    (delete_task (delete_task ⟨[⟨1, "a", false, 0, 0⟩], 2, 1⟩ 1).2 1).1 =
      .error .notFound ∧
    (∀ u ∈ list_tasks (delete_task ⟨[⟨1, "a", false, 0, 0⟩], 2, 1⟩ 1).2,
      u.id ≠ 1) :=
  delete_then_not_found ⟨[⟨1, "a", false, 0, 0⟩], 2, 1⟩ 1
    ⟨1, "a", false, 0, 0⟩ rfl

/-- C8: for an id carried by no task in the store, update (with any
payload), toggle, and delete all fail with 404 `notFound` and leave the
store completely unchanged. -/
theorem not_found_no_mutation (st : Store) (task_id : Nat)
    (h : ∀ t ∈ st.tasks, t.id ≠ task_id) :
    (∀ p : TaskUpdate,
      (update_task st task_id p).1 = .error .notFound ∧
      (update_task st task_id p).2 = st) ∧
    ((toggle_task st task_id).1 = .error .notFound ∧
      (toggle_task st task_id).2 = st) ∧
    ((delete_task st task_id).1 = .error .notFound ∧
      (delete_task st task_id).2 = st) := by
  have hnone : dbGet st task_id = none := by
    rw [dbGet, List.find?_eq_none]
    intro x hx
    simpa using h x hx
  exact ⟨fun p => update_task_miss _ _ p hnone,
    toggle_task_miss _ _ hnone, delete_task_miss _ _ hnone⟩

/-- Witness for C8: id 7 on a one-row store holding id 1. -/
theorem not_found_no_mutation_witness :
    (∀ p : TaskUpdate,
      (update_task ⟨[⟨1, "a", false, 0, 0⟩], 2, 1⟩ 7 p).1 =
        .error .notFound ∧
      (update_task ⟨[⟨1, "a", false, 0, 0⟩], 2, 1⟩ 7 p).2 =
        ⟨[⟨1, "a", false, 0, 0⟩], 2, 1⟩) ∧
    ((toggle_task ⟨[⟨1, "a", false, 0, 0⟩], 2, 1⟩ 7).1 =
        .error .notFound ∧
      (toggle_task ⟨[⟨1, "a", false, 0, 0⟩], 2, 1⟩ 7).2 =
        ⟨[⟨1, "a", false, 0, 0⟩], 2, 1⟩) ∧
    ((delete_task ⟨[⟨1, "a", false, 0, 0⟩], 2, 1⟩ 7).1 =
        .error .notFound ∧
      (delete_task ⟨[⟨1, "a", false, 0, 0⟩], 2, 1⟩ 7).2 =
        ⟨[⟨1, "a", false, 0, 0⟩], 2, 1⟩) :=
  not_found_no_mutation ⟨[⟨1, "a", false, 0, 0⟩], 2, 1⟩ 7
    (by decide)

/-- Validation of a `PUT` body whose parse succeeds reduces
`api_update` to the handler body. -/
theorem api_update_ok (st : Store) (task_id : Nat) (ft : Field String)
    (fb : Field Bool) (p : TaskUpdate)
    (h : parseTaskUpdate ft fb = .ok p) :
    api_update st task_id ft fb = update_task st task_id p := by
  unfold api_update
  rw [h]

/-- A hit in `update_task` with no net attribute change: flush emits no
UPDATE, the row stays as loaded, only the clock advances. -/
theorem update_task_hit_noop (st : Store) (task_id : Nat)
    (p : TaskUpdate) (task : Task)
    (hget : dbGet st task_id = some task)
    (hnoop : applyPayload task p = task) :
    update_task st task_id p =
      (.ok task, { st with clock := st.clock + 1 }) := by
  simp [update_task, hget, hnoop]

/-- A hit in `update_task` with a net attribute change rewrites to the
explicit result pair of the emitted UPDATE. -/
theorem update_task_hit_changed (st : Store) (task_id : Nat)
    (p : TaskUpdate) (task : Task)
    (hget : dbGet st task_id = some task)
    (hchg : applyPayload task p ≠ task) :
    update_task st task_id p =
      (.ok (updatedTask task p st.clock),
       { tasks := replaceRow st.tasks task_id (updatedTask task p st.clock),
         nextId := st.nextId, clock := st.clock + 1 }) := by
  simp [update_task, hget, hchg]

/-! ## Timestamp invariant -/

/-- Create preserves the timestamp invariant. -/
theorem timestampInv_create (st : Store) (f : Field String)
    (h : TimestampInv st) : TimestampInv (api_create st f).2 := by
  unfold api_create
  rcases hp : parseTaskCreate f with e | payload
  · exact h
  · intro t ht
    simp only [create_task, List.mem_append, List.mem_singleton] at ht
    rcases ht with ht | rfl
    · exact ⟨(h t ht).1, Nat.lt_succ_of_lt (h t ht).2⟩
    · exact ⟨Nat.le_refl _, Nat.lt_succ_self _⟩

/-- The handler `update_task` preserves the timestamp invariant. -/
theorem timestampInv_update_task (st : Store) (task_id : Nat)
    (p : TaskUpdate) (h : TimestampInv st) :
    TimestampInv (update_task st task_id p).2 := by
  rcases hg : dbGet st task_id with _ | task
  · rw [(update_task_miss st task_id p hg).2]
    exact h
  · by_cases hchg : applyPayload task p = task
    · rw [update_task_hit_noop st task_id p task hg hchg]
      intro t ht
      exact ⟨(h t ht).1, Nat.lt_succ_of_lt (h t ht).2⟩
    · rw [update_task_hit_changed st task_id p task hg hchg]
      intro t ht
      simp only at ht
      rcases mem_replaceRow ht with rfl | hmem
      · have hold := h task (dbGet_mem hg)
        refine ⟨?_, Nat.lt_succ_self _⟩
        show (applyPayload task p).created_at ≤ st.clock
        rw [applyPayload_created_at]
        exact Nat.le_of_lt (Nat.lt_of_le_of_lt hold.1 hold.2)
      · exact ⟨(h t hmem).1, Nat.lt_succ_of_lt (h t hmem).2⟩

/-- The route `api_update` preserves the timestamp invariant. -/
theorem timestampInv_update (st : Store) (task_id : Nat)
    (ft : Field String) (fb : Field Bool) (h : TimestampInv st) :
    TimestampInv (api_update st task_id ft fb).2 := by
  unfold api_update
  rcases hp : parseTaskUpdate ft fb with e | payload
  · exact h
  · exact timestampInv_update_task st task_id payload h

/-- The handler `toggle_task` preserves the timestamp invariant. -/
theorem timestampInv_toggle (st : Store) (task_id : Nat)
    (h : TimestampInv st) : TimestampInv (toggle_task st task_id).2 := by
  unfold toggle_task
  rcases hg : dbGet st task_id with _ | task
  · exact h
  · intro t ht
    simp only at ht
    rcases mem_replaceRow ht with rfl | hmem
    · have hold := h task (dbGet_mem hg)
      exact ⟨Nat.le_of_lt (Nat.lt_of_le_of_lt hold.1 hold.2),
        Nat.lt_succ_self _⟩
    · exact ⟨(h t hmem).1, Nat.lt_succ_of_lt (h t hmem).2⟩

/-- The handler `delete_task` preserves the timestamp invariant. -/
theorem timestampInv_delete (st : Store) (task_id : Nat)
    (h : TimestampInv st) : TimestampInv (delete_task st task_id).2 := by
  unfold delete_task
  rcases hg : dbGet st task_id with _ | task
  · exact h
  · intro t ht
    simp only [List.mem_filter] at ht
    exact ⟨(h t ht.1).1, Nat.lt_succ_of_lt (h t ht.1).2⟩

/-- The timestamp invariant holds in every reachable store. -/
theorem reachable_timestampInv (st : Store) (h : Reachable st) :
    TimestampInv st := by
  induction h with
  | init => intro t ht; simp [Store.empty] at ht
  | create st f _ ih => exact timestampInv_create st f ih
  | update st task_id ft fb _ ih =>
      exact timestampInv_update st task_id ft fb ih
  | toggle st task_id _ ih => exact timestampInv_toggle st task_id ih
  | delete st task_id _ ih => exact timestampInv_delete st task_id ih

/-- C9: in every store reachable by any sequence of create, update,
toggle and delete requests, every task satisfies
`created_at ≤ updated_at`. -/
theorem updated_at_ge_created_at (st : Store) (h : Reachable st) :
    ∀ t ∈ st.tasks, t.created_at ≤ t.updated_at :=
  fun t ht => (reachable_timestampInv st h t ht).1

/-- Witness for C9: the store obtained by one create. -/
theorem updated_at_ge_created_at_witness :
    (Task.mk 1 "a" false 0 0).created_at ≤
      (Task.mk 1 "a" false 0 0).updated_at :=
  updated_at_ge_created_at _
    (Reachable.create Store.empty (Field.val "a") Reachable.init)
    (Task.mk 1 "a" false 0 0) (by decide)

/-- Counterexample to C4 as literally stated: on the reachable store
built by creating task 1 with title "a" (a store whose only row has
`updated_at = 0`), updating task 1 with the valid title "a" — equal to
its current title — produces no net attribute change, so flush emits no
UPDATE, the `onupdate` hook never fires, and the stored row keeps
`updated_at = 0`: it does not strictly increase. -/
theorem update_same_title_not_refreshed :
    dbGet (api_create Store.empty (Field.val "a")).2 1 =
      some (Task.mk 1 "a" false 0 0) ∧
    (1 ≤ "a".length ∧ "a".length ≤ 255) ∧
    (api_update (api_create Store.empty (Field.val "a")).2 1
      (Field.val "a") Field.missing).1 = .ok (Task.mk 1 "a" false 0 0) ∧
    (api_update (api_create Store.empty (Field.val "a")).2 1
      (Field.val "a") Field.missing).2.tasks =
      [Task.mk 1 "a" false 0 0] ∧
    ¬ (Task.mk 1 "a" false 0 0).updated_at <
        (Task.mk 1 "a" false 0 0).updated_at :=
  ⟨rfl, by decide, rfl, by decide, by decide⟩

/-- C4 (amended): on a reachable store, updating an existing task with
a valid title that differs from its current title, `is_completed`
omitted, changes only the title: the flag and `created_at` are
unchanged, `updated_at` strictly increases, and the rows with any other
id are exactly the ones that were there before.  (When the supplied
title equals the current one there is no net change, no UPDATE is
emitted, and the row — `updated_at` included — is untouched.) -/
theorem update_title_only_frame (st : Store) (task_id : Nat)
    (task : Task) (s : String) (hreach : Reachable st)
    (hget : dbGet st task_id = some task)
    (hs : 1 ≤ s.length ∧ s.length ≤ 255)
    (hne : s ≠ task.title) :
    ∃ t',
      (api_update st task_id (Field.val s) Field.missing).1 = .ok t' ∧
      t'.title = s ∧
      t'.is_completed = task.is_completed ∧
      t'.created_at = task.created_at ∧
      task.updated_at < t'.updated_at ∧
      (∀ u ∈ st.tasks, u.id ≠ task_id →
        u ∈ (api_update st task_id (Field.val s) Field.missing).2.tasks) ∧
      (∀ u ∈ (api_update st task_id (Field.val s) Field.missing).2.tasks,
        u.id ≠ task_id → u ∈ st.tasks) := by
  have hv : validTitle s = true := by
    unfold validTitle
    simp only [Bool.and_eq_true, decide_eq_true_eq]
    omega
  have hpar : parseTaskUpdate (Field.val s) Field.missing =
      .ok ⟨some s, none⟩ := by
    simp only [parseTaskUpdate, parseOptTitle, parseOptBool, hv,
      if_true]
    rfl
  have hchg : applyPayload task ⟨some s, none⟩ ≠ task := by
    intro hcontra
    have hts := applyPayload_title_some task s none
    rw [hcontra] at hts
    exact hne hts.symm
  have heq := (api_update_ok st task_id _ _ _ hpar).trans
    (update_task_hit_changed st task_id ⟨some s, none⟩ task hget hchg)
  have hclk := (reachable_timestampInv st hreach task (dbGet_mem hget)).2
  have hid0 : task.id = task_id := dbGet_id hget
  have hid' : (updatedTask task ⟨some s, none⟩ st.clock).id = task_id :=
    hid0
  refine ⟨updatedTask task ⟨some s, none⟩ st.clock,
    ?_, ?_, ?_, ?_, ?_, ?_, ?_⟩
  · rw [heq]
  · exact applyPayload_title_some task s none
  · exact applyPayload_is_completed_none task (some s)
  · exact applyPayload_created_at task ⟨some s, none⟩
  · exact hclk
  · intro u hu hne
    rw [heq]
    exact mem_replaceRow_of_ne hu hne
  · intro u hu hne
    rw [heq] at hu
    exact of_mem_replaceRow_ne hu hid' hne

/-- Witness for C4 (amended): retitling the single task of a store
built by one create, from "a" to the different title "b". -/
theorem update_title_only_frame_witness :
    ∃ t',
      (api_update (api_create Store.empty (Field.val "a")).2 1
        (Field.val "b") Field.missing).1 = .ok t' ∧
      t'.title = "b" ∧
      t'.is_completed = (Task.mk 1 "a" false 0 0).is_completed ∧
      t'.created_at = (Task.mk 1 "a" false 0 0).created_at ∧
      (Task.mk 1 "a" false 0 0).updated_at < t'.updated_at ∧
      (∀ u ∈ (api_create Store.empty (Field.val "a")).2.tasks, u.id ≠ 1 →
        u ∈ (api_update (api_create Store.empty (Field.val "a")).2 1
          (Field.val "b") Field.missing).2.tasks) ∧
      (∀ u ∈ (api_update (api_create Store.empty (Field.val "a")).2 1
          (Field.val "b") Field.missing).2.tasks,
        u.id ≠ 1 → u ∈ (api_create Store.empty (Field.val "a")).2.tasks) :=
  update_title_only_frame _ 1 (Task.mk 1 "a" false 0 0) "b"
    (Reachable.create Store.empty (Field.val "a") Reachable.init)
    (by decide) (by decide) (by decide)

/-- Counterexample to C5 as literally stated: on the reachable store
built by creating task 1 (whose row has `updated_at = 0`), a PUT with
neither field supplied applies no attribute change, so flush emits no
UPDATE and the `onupdate` hook never fires: the request succeeds but
the stored row still has `updated_at = 0` — it was not refreshed. -/
theorem update_empty_not_refreshed :
    dbGet (api_create Store.empty (Field.val "a")).2 1 =
      some (Task.mk 1 "a" false 0 0) ∧
    (api_update (api_create Store.empty (Field.val "a")).2 1
      Field.missing Field.missing).1 = .ok (Task.mk 1 "a" false 0 0) ∧
    (api_update (api_create Store.empty (Field.val "a")).2 1
      Field.missing Field.missing).2.tasks =
      [Task.mk 1 "a" false 0 0] ∧
    ¬ (Task.mk 1 "a" false 0 0).updated_at <
        (Task.mk 1 "a" false 0 0).updated_at :=
  ⟨rfl, rfl, by decide, by decide⟩

/-- C5 (amended): an Update of an existing task that supplies neither
`title` nor `is_completed` succeeds (it is legal) and is a complete
no-op on the stored rows: the task's title, flag, `created_at` and
also `updated_at` are unchanged, because with no net attribute change
the flush emits no UPDATE and the `onupdate` hook does not fire. -/
theorem update_no_fields_noop (st : Store) (task_id : Nat)
    (task : Task) (hget : dbGet st task_id = some task) :
    (api_update st task_id Field.missing Field.missing).1 = .ok task ∧
    (api_update st task_id Field.missing Field.missing).2.tasks =
      st.tasks := by
  have hpar : parseTaskUpdate Field.missing Field.missing =
      (.ok ⟨none, none⟩ : Except ApiError TaskUpdate) := rfl
  have heq := (api_update_ok st task_id _ _ _ hpar).trans
    (update_task_hit_noop st task_id ⟨none, none⟩ task hget rfl)
  rw [heq]
  exact ⟨rfl, rfl⟩

/-- Witness for C5 (amended): the empty update on a store built by one
create. -/
theorem update_no_fields_noop_witness :
    (api_update (api_create Store.empty (Field.val "a")).2 1
      Field.missing Field.missing).1 = .ok (Task.mk 1 "a" false 0 0) ∧
    (api_update (api_create Store.empty (Field.val "a")).2 1
      Field.missing Field.missing).2.tasks =
      (api_create Store.empty (Field.val "a")).2.tasks :=
  update_no_fields_noop _ 1 (Task.mk 1 "a" false 0 0) (by decide)

/-- A hit in `toggle_task` rewrites to the explicit result pair. -/
theorem toggle_task_hit (st : Store) (task_id : Nat) (task : Task)
    (hget : dbGet st task_id = some task) :
    toggle_task st task_id =
      (.ok (toggledTask task st.clock),
       { tasks := replaceRow st.tasks task_id (toggledTask task st.clock),
         nextId := st.nextId, clock := st.clock + 1 }) := by
  unfold toggle_task toggledTask
  rw [hget]

/-- After a toggle, the lookup finds the flipped row. -/
theorem dbGet_toggle (st : Store) (task_id : Nat) (task : Task)
    (hget : dbGet st task_id = some task) :
    dbGet (toggle_task st task_id).2 task_id =
      some (toggledTask task st.clock) := by
  have hid0 : task.id = task_id := dbGet_id hget
  have hid : (toggledTask task st.clock).id = task_id := hid0
  rw [toggle_task_hit st task_id task hget]
  unfold dbGet at hget ⊢
  exact find?_replaceRow st.tasks task_id task _ hget hid

/-- C6: starting from any store holding a task with the given id, after
`n` Toggle requests the stored `is_completed` flag equals the original
value when `n` is even and its logical negation when `n` is odd; in
particular two toggles restore the flag and one toggle negates it,
independently of the prior value. -/
theorem toggle_parity (st : Store) (task_id : Nat) (task : Task)
    (n : Nat) (hget : dbGet st task_id = some task) :
    ∃ tN, dbGet (iterToggle st task_id n) task_id = some tN ∧
      tN.is_completed =
        (if n % 2 = 0 then task.is_completed else !task.is_completed) := by
  induction n with
  | zero => exact ⟨task, hget, by simp⟩
  | succ n ih =>
    obtain ⟨tN, hN, hflag⟩ := ih
    refine ⟨_, dbGet_toggle _ _ _ hN, ?_⟩
    show (!tN.is_completed) = _
    rw [hflag]
    rcases Nat.mod_two_eq_zero_or_one n with h | h
    · have h1 : (n + 1) % 2 = 1 := by omega
      simp [h, h1]
    · have h0 : (n + 1) % 2 = 0 := by omega
      simp [h, h0]

/-- Witness for C6: two toggles on a one-row store. -/
theorem toggle_parity_witness :
    ∃ tN,
      dbGet (iterToggle ⟨[⟨1, "a", false, 0, 0⟩], 2, 1⟩ 1 2) 1 =
        some tN ∧
      tN.is_completed =
        (if 2 % 2 = 0 then (Task.mk 1 "a" false 0 0).is_completed
         else !(Task.mk 1 "a" false 0 0).is_completed) :=
  toggle_parity ⟨[⟨1, "a", false, 0, 0⟩], 2, 1⟩ 1
    (Task.mk 1 "a" false 0 0) 2 (by decide)

/-- C10: an Update body field that is explicitly `null` passes
validation and behaves exactly like an omitted field: the whole request
has the same outcome as with the field absent, and with both fields
`null` the stored title and flag are left unchanged. -/
theorem update_null_like_missing (st : Store) (task_id : Nat)
    (ft : Field String) (fb : Field Bool) :
    api_update st task_id Field.null fb =
      api_update st task_id Field.missing fb ∧
    api_update st task_id ft Field.null =
      api_update st task_id ft Field.missing ∧
    parseOptTitle Field.null = .ok none ∧
    parseOptBool Field.null = .ok none ∧
    (∀ task, dbGet st task_id = some task →
      ∃ t',
        (api_update st task_id Field.null Field.null).1 = .ok t' ∧
        t'.title = task.title ∧
        t'.is_completed = task.is_completed) := by
  refine ⟨rfl, rfl, rfl, rfl, ?_⟩
  intro task hget
  have heq := (api_update_ok st task_id Field.null Field.null
    ⟨none, none⟩ rfl).trans
    (update_task_hit_noop st task_id ⟨none, none⟩ task hget rfl)
  exact ⟨task, by rw [heq], rfl, rfl⟩

/-- Witness for C10 on a one-row store. -/
theorem update_null_like_missing_witness :
    api_update ⟨[⟨1, "a", false, 0, 0⟩], 2, 1⟩ 1 Field.null
        (Field.val true) =
      api_update ⟨[⟨1, "a", false, 0, 0⟩], 2, 1⟩ 1 Field.missing
        (Field.val true) ∧
    api_update ⟨[⟨1, "a", false, 0, 0⟩], 2, 1⟩ 1 (Field.val "b")
        Field.null =
      api_update ⟨[⟨1, "a", false, 0, 0⟩], 2, 1⟩ 1 (Field.val "b")
        Field.missing ∧
    parseOptTitle Field.null = .ok none ∧
    parseOptBool Field.null = .ok none ∧
    (∀ task, dbGet ⟨[⟨1, "a", false, 0, 0⟩], 2, 1⟩ 1 = some task →
      ∃ t',
        (api_update ⟨[⟨1, "a", false, 0, 0⟩], 2, 1⟩ 1 Field.null
          Field.null).1 = .ok t' ∧
        t'.title = task.title ∧
        t'.is_completed = task.is_completed) :=
  update_null_like_missing ⟨[⟨1, "a", false, 0, 0⟩], 2, 1⟩ 1
    (Field.val "b") (Field.val true)

end TaskApi
